import Mathlib

/-!
Shallow embedding of `include/mm_file/mm_file.hpp` (namespace `mm`):
the read-only mapped view `file_source<T>` and the writable mapped view
`file_sink<T>`.

Modelling conventions:
* `size_t` is `Nat`; the one place the source multiplies two `size_t`
  values (`m_size = n * sizeof(T)` in `file_sink::open`) reduces
  modulo `WORD = 2 ^ 64` explicitly.
* Descriptors and pointers are `Int`: `-1` is the invalid-descriptor
  sentinel and also `MAP_FAILED` for pointers; `0` is `nullptr`;
  successful syscalls return non-negative values.
* The element type `T` is an abstract type `α` together with its size
  `s = sizeof(T)` and its raw in-memory representation, given by an
  encoding `enc : α → List Nat` (of length `s`) and the matching
  decoding `dec : List Nat → α`; the mapped bytes are interpreted
  exactly as that representation, as the source does.
* Syscall outcomes that depend on the operating system rather than on
  the modelled file (descriptor values, mmap addresses, failures of
  `fstat`, `mmap`, `posix_madvise`, `ftruncate`, `munmap`) are supplied
  by explicit environment records; a C++ `throw` is modelled by an
  `Except.error` result paired with the object state at the throw
  point, since the fields already assigned persist past the throw.
* The filesystem is modelled at a single path: an `Option FileData`
  holding the byte contents of the file the views are opened on.
-/

namespace MmFile

/-- `size_t` arithmetic in `file_sink::open` wraps at the 64-bit word. -/
def WORD : Nat := 2 ^ 64

/-- The five failure kinds raised by `file_source` / `file_sink`:
each corresponds to one `throw std::runtime_error` site in the source. -/
inductive MmError where
  | fileOpenError
  | fileStatError
  | mappingError
  | adviseError
  | unmapError
deriving DecidableEq

/-- The byte contents of the file at the path of interest: `len` bytes,
the byte at offset `k` being `content k` (offsets past `len` are
irrelevant). -/
structure FileData where
  len : Nat
  content : Nat → Nat

/-- The member fields shared verbatim by `file_source<T>` and
`file_sink<T>`: `int m_fd; size_t m_size; T* m_data;`. -/
structure ViewState where
  m_fd : Int
  m_size : Nat
  m_data : Int
deriving DecidableEq

/-- `init()`: `m_fd = -1; m_size = 0; m_data = nullptr;` — identical in
both structs; also the state of a default-constructed view. -/
def initState : ViewState := ⟨-1, 0, 0⟩

/-- `is_open()`: `return m_fd != -1;` — identical in both structs. -/
def is_open (st : ViewState) : Bool := st.m_fd != -1

/-- `bytes()`: `return m_size;` — identical in both structs. -/
def bytes (st : ViewState) : Nat := st.m_size

/-- `size()`: `return m_size / sizeof(T);` — identical in both structs;
`s` is `sizeof(T)`. -/
def size (s : Nat) (st : ViewState) : Nat := st.m_size / s

/-- `data()`: `return m_data;` (the base address of the mapping). -/
def data (st : ViewState) : Int := st.m_data

/-- Outcomes of the syscalls made by `file_source::open` that the model
does not determine from the file itself: the descriptor returned by a
successful `::open`, whether `fstat` succeeds, whether `mmap` succeeds
and at which address, and whether `posix_madvise` succeeds. -/
structure SrcEnv where
  fd : Nat
  statOk : Bool
  mmapOk : Bool
  mmapAddr : Nat
  madviseOk : Bool

/-- Result of `file_source::open`: the object state when the call
returns or throws, the outcome, and the `(address, length)` pair passed
to `posix_madvise` when that call is reached. -/
structure SrcOpenResult where
  st : ViewState
  res : Except MmError Unit
  madviseCall : Option (Int × Nat)

/-- `file_source::open(path, adv)` (source lines 35-57), acting on the
current object state `st` and the file `fs` at `path`; `s` is
`sizeof(T)`.  Steps, in source order:
`m_fd = ::open(path, O_RDONLY)` — fails iff the file is absent, and on
failure `m_fd` holds the returned `-1`;
`fstat` — on failure the throw happens with `m_fd` already assigned;
`m_size = fs.st_size`;
`m_data = mmap(NULL, m_size, PROT_READ, MAP_SHARED, m_fd, 0)` — on
failure `m_data` holds `MAP_FAILED` (`-1`);
`posix_madvise((void*)m_data, m_size / sizeof(T), adv)` — note the
length argument is `m_size / sizeof(T)`, not `m_size`. -/
def sourceOpen (s : Nat) (st : ViewState) (fs : Option FileData) (e : SrcEnv) :
    SrcOpenResult :=
  match fs with
  | none => ⟨{ st with m_fd := -1 }, .error .fileOpenError, none⟩
  | some f =>
    let st1 := { st with m_fd := (e.fd : Int) }
    if !e.statOk then ⟨st1, .error .fileStatError, none⟩
    else
      let st2 := { st1 with m_size := f.len }
      if !e.mmapOk then ⟨{ st2 with m_data := -1 }, .error .mappingError, none⟩
      else
        let st3 := { st2 with m_data := (e.mmapAddr : Int) }
        if !e.madviseOk then
          ⟨st3, .error .adviseError, some (st3.m_data, st3.m_size / s)⟩
        else ⟨st3, .ok (), some (st3.m_data, st3.m_size / s)⟩

/-- `close()` (source lines 63-72 and 169-178; the two bodies are
textually identical apart from the message string):
`if (is_open()) { if (munmap(...) == -1) throw ...; ::close(m_fd); init(); }`.
On a munmap failure the throw happens before `::close` and `init()`, so
the object state is unchanged; on success the state is reset by
`init()`; when the view is not open the call is a no-op. -/
def closeView (st : ViewState) (munmapOk : Bool) :
    ViewState × Except MmError Unit :=
  if is_open st then
    if !munmapOk then (st, .error .unmapError)
    else (initState, .ok ())
  else (st, .ok ())

/-- Outcomes of the syscalls made by `file_sink::open`: whether
`::open(path, O_RDWR | O_CREAT | O_TRUNC, 0600)` succeeds and with which
descriptor, whether the (unchecked) `ftruncate` succeeds, and whether
`mmap` succeeds and at which address. -/
structure SinkEnv where
  openOk : Bool
  fd : Nat
  ftruncateOk : Bool
  mmapOk : Bool
  mmapAddr : Nat

/-- `file_sink::open(path, n)` (source lines 146-163), acting on the
object state `st` and the file `fs` at `path`.  Steps, in source order:
`m_fd = ::open(path, O_RDWR | O_CREAT | O_TRUNC, 0600)` — on success
the file is created or truncated to zero length;
`m_size = n * sizeof(T)` — `size_t` multiplication, modulo `WORD`;
`ftruncate(m_fd, m_size)` — the return value is ignored by the source,
so a failed resize leaves the file at length `0` without aborting;
`m_data = mmap(NULL, m_size, PROT_READ | PROT_WRITE, MAP_SHARED, m_fd, 0)`.
Returns the object state, the resulting file, and the outcome. -/
def sinkOpen (s : Nat) (st : ViewState) (fs : Option FileData) (n : Nat)
    (e : SinkEnv) : ViewState × Option FileData × Except MmError Unit :=
  if !e.openOk then ({ st with m_fd := -1 }, fs, .error .fileOpenError)
  else
    let st1 := { st with m_fd := (e.fd : Int) }
    let st2 := { st1 with m_size := n * s % WORD }
    let f1 : FileData :=
      if e.ftruncateOk then ⟨st2.m_size, fun _ => 0⟩ else ⟨0, fun _ => 0⟩
    if !e.mmapOk then ({ st2 with m_data := -1 }, some f1, .error .mappingError)
    else ({ st2 with m_data := (e.mmapAddr : Int) }, some f1, .ok ())

/-- Length of the modelled file, `0` when the file is absent. -/
def fileLen : Option FileData → Nat
  | none => 0
  | some f => f.len

/-- Byte at offset `k` of the modelled file, `0` when the file is
absent. -/
def fileByte (fs : Option FileData) (k : Nat) : Nat :=
  match fs with
  | none => 0
  | some f => f.content k

/-- The modelled file, defaulting to an empty one when absent. -/
def fileOf : Option FileData → FileData
  | none => ⟨0, fun _ => 0⟩
  | some f => f

/-- Reading element `i` of the mapping: the `s` bytes at offsets
`i * s, …, i * s + s - 1` of the backing file, interpreted through the
in-memory representation `dec` of `T`. -/
def readElem {α : Type} (s : Nat) (dec : List Nat → α) (f : FileData)
    (i : Nat) : α :=
  dec ((List.range s).map fun k => f.content (i * s + k))

/-- Writing `v` to element `i` of the mapping (`data()[i] = v` through
the shared read-write mapping): the bytes at offsets
`i * s, …, i * s + s - 1` become the representation `enc v`. -/
def writeElem {α : Type} (s : Nat) (enc : α → List Nat) (f : FileData)
    (i : Nat) (v : α) : FileData :=
  ⟨f.len, fun k =>
    if i * s ≤ k ∧ k < i * s + s then (enc v).getD (k - i * s) 0
    else f.content k⟩

/-- Writing the values `vs` to consecutive elements of the mapping
starting at element index `start`, in order. -/
def writeSeq {α : Type} (s : Nat) (enc : α → List Nat) (f : FileData)
    (start : Nat) (vs : List α) : FileData :=
  match vs with
  | [] => f
  | v :: rest => writeSeq s enc (writeElem s enc f start v) (start + 1) rest

/-- The iterator of either view: the single field `T* m_ptr`, in
element-granularity address units. -/
structure ViewIterator where
  m_ptr : Int
deriving DecidableEq

/-- `iterator(T* addr, size_t offset = 0) : m_ptr(addr + offset)` —
identical in both structs. -/
def mkIter (addr : Int) (offset : Nat) : ViewIterator := ⟨addr + offset⟩

/-- `operator++()`: `++m_ptr;` — identical in both structs. -/
def iterNext (it : ViewIterator) : ViewIterator := ⟨it.m_ptr + 1⟩

/-- `operator==`: `return m_ptr == rhs.m_ptr;` — position-only
equality, identical in both structs. -/
def iterEq (a b : ViewIterator) : Bool := a.m_ptr == b.m_ptr

/-- `begin()`: `return iterator(m_data);` — identical in both structs. -/
def beginIter (st : ViewState) : ViewIterator := mkIter st.m_data 0

/-- `end()`: `return iterator(m_data, size());` — identical in both
structs. -/
def endIter (s : Nat) (st : ViewState) : ViewIterator :=
  mkIter st.m_data (size s st)

/-- The element value produced by evaluating `*m_ptr` for an iterator
over a mapping based at address `base` and backed by file `f`: the
element at index `m_ptr - base`. -/
def iterRead {α : Type} (s : Nat) (dec : List Nat → α) (f : FileData)
    (base : Int) (it : ViewIterator) : α :=
  readElem s dec f (it.m_ptr - base).toNat

/-- C++ return-category of a dereference: a function declared to return
`T` by value produces a detached copy of the element; one declared to
return `T&` would produce a mutable reference into the mapping at the
given element index.  Assignment through a `copy` cannot modify the
mapping. -/
inductive DerefResult (α : Type) where
  | copy (v : α)
  | mutableRef (idx : Nat)

/-- Whether a dereference result grants mutable access to the mapping. -/
def DerefResult.isMutable {α : Type} : DerefResult α → Bool
  | .copy _ => false
  | .mutableRef _ => true

/-- `file_source::iterator::operator*` (source lines 89-91): declared
`T operator*()` — returns `*m_ptr` by value, a copy. -/
def sourceIterDeref {α : Type} (s : Nat) (dec : List Nat → α)
    (f : FileData) (base : Int) (it : ViewIterator) : DerefResult α :=
  .copy (iterRead s dec f base it)

/-- `file_sink::iterator::operator*` (source lines 195-197): also
declared `T operator*()` — returns `*m_ptr` by value, a copy, exactly
as the read view's iterator does; it is not declared `T&`. -/
def sinkIterDeref {α : Type} (s : Nat) (dec : List Nat → α)
    (f : FileData) (base : Int) (it : ViewIterator) : DerefResult α :=
  .copy (iterRead s dec f base it)

/-- The C++ iteration protocol
`for (auto it = begin; it != end; ++it) use(*it);` as a fuel-indexed
loop: stop when `it == stop`, otherwise yield `*it` and advance. -/
def iterLoop {α : Type} (s : Nat) (dec : List Nat → α) (f : FileData)
    (base : Int) (stop : ViewIterator) : ViewIterator → Nat → List α
  | _, 0 => []
  | it, fuel + 1 =>
    if iterEq it stop then []
    else iterRead s dec f base it :: iterLoop s dec f base stop (iterNext it) fuel

/-- The sequence of element values visited by iterating a view from
`begin()` to `end()`. -/
def viewElems {α : Type} (s : Nat) (dec : List Nat → α) (f : FileData)
    (st : ViewState) : List α :=
  iterLoop s dec f st.m_data (endIter s st) (beginIter st) (size s st + 1)

/-! Helper lemmas about the embedding. -/

/-- The iteration loop from position `i` to stop position `n` visits
exactly the elements `i, i + 1, …, n - 1`. -/
theorem iterLoop_range' {α : Type} (s : Nat) (dec : List Nat → α)
    (f : FileData) (base : Int) (n : Nat) :
    ∀ (fuel i : Nat), i ≤ n → n - i < fuel →
      iterLoop s dec f base ⟨base + (n : Int)⟩ ⟨base + (i : Int)⟩ fuel =
        (List.range' i (n - i)).map (readElem s dec f) := by
  intro fuel
  induction fuel with
  | zero => intro i hi hf; omega
  | succ fuel ih =>
    intro i hi hf
    by_cases hin : i = n
    · subst hin
      simp [iterLoop, iterEq]
    · have hlt : i < n := lt_of_le_of_ne hi hin
      have hne : iterEq ⟨base + (i : Int)⟩ ⟨base + (n : Int)⟩ = false := by
        simp [iterEq]
        omega
      have hread : iterRead s dec f base ⟨base + (i : Int)⟩ = readElem s dec f i := by
        simp [iterRead]
      have hstep : iterNext ⟨base + (i : Int)⟩ = ⟨base + ((i + 1 : Nat) : Int)⟩ := by
        simp [iterNext, add_assoc]
      have hrange : List.range' i (n - i) =
          i :: List.range' (i + 1) (n - (i + 1)) := by
        have : n - i = (n - (i + 1)) + 1 := by omega
        rw [this, List.range'_succ]
      rw [iterLoop, hne, hread, hstep, ih (i + 1) (by omega) (by omega), hrange]
      simp

/-- Iterating a view from `begin()` to `end()` visits exactly the
elements `0, …, size() - 1`, in order. -/
theorem viewElems_eq_map {α : Type} (s : Nat) (dec : List Nat → α)
    (f : FileData) (st : ViewState) :
    viewElems s dec f st = (List.range (size s st)).map (readElem s dec f) := by
  have h0 : (beginIter st) = ⟨st.m_data + ((0 : Nat) : Int)⟩ := by
    simp [beginIter, mkIter]
  have h := iterLoop_range' s dec f st.m_data (size s st) (size s st + 1) 0
    (Nat.zero_le _) (by omega)
  rw [viewElems, List.range_eq_range']
  rw [endIter, mkIter, h0]
  simpa using h

theorem writeElem_len {α : Type} (s : Nat) (enc : α → List Nat)
    (f : FileData) (i : Nat) (v : α) :
    (writeElem s enc f i v).len = f.len := rfl

theorem writeSeq_len {α : Type} (s : Nat) (enc : α → List Nat) :
    ∀ (vs : List α) (f : FileData) (start : Nat),
      (writeSeq s enc f start vs).len = f.len := by
  intro vs
  induction vs with
  | nil => intro f start; rfl
  | cons v rest ih =>
    intro f start
    simp only [writeSeq]
    rw [ih, writeElem_len]

/-- Reading back the element just written yields the decoded encoding
of the written value. -/
theorem readElem_writeElem_self {α : Type} (s : Nat) (enc : α → List Nat)
    (dec : List Nat → α) (f : FileData) (i : Nat) (v : α)
    (hlen : (enc v).length = s) :
    readElem s dec (writeElem s enc f i v) i = dec (enc v) := by
  unfold readElem writeElem
  congr 1
  apply List.ext_getElem
  · simp [hlen]
  · intro k h1 h2
    simp only [List.getElem_map, List.getElem_range]
    have hk : k < s := by simpa using h1
    have hcond : i * s ≤ i * s + k ∧ i * s + k < i * s + s := by omega
    rw [if_pos hcond]
    simp only [Nat.add_sub_cancel_left]
    simp [List.getD_eq_getElem?_getD, List.getElem?_eq_getElem (by omega : k < (enc v).length)]

/-- Writing element `j` does not alter the bytes of a distinct element
`i`. -/
theorem readElem_writeElem_other {α : Type} (s : Nat) (enc : α → List Nat)
    (dec : List Nat → α) (f : FileData) (i j : Nat) (v : α)
    (hij : i ≠ j) :
    readElem s dec (writeElem s enc f j v) i = readElem s dec f i := by
  unfold readElem writeElem
  congr 1
  apply List.map_congr_left
  intro k hk
  have hks : k < s := by simpa using hk
  have hcond : ¬ (j * s ≤ i * s + k ∧ i * s + k < j * s + s) := by
    rcases Nat.lt_or_ge i j with h | h
    · rintro ⟨h1, _⟩
      have hmul : (i + 1) * s ≤ j * s := Nat.mul_le_mul_right s h
      rw [Nat.succ_mul] at hmul
      linarith
    · have hj : j < i := by omega
      rintro ⟨_, h2⟩
      have hmul : (j + 1) * s ≤ i * s := Nat.mul_le_mul_right s hj
      rw [Nat.succ_mul] at hmul
      linarith
  simp only [if_neg hcond]

/-- A block of writes at element indices `start, start + 1, …` does not
alter any element below `start`. -/
theorem readElem_writeSeq_lt {α : Type} (s : Nat) (enc : α → List Nat)
    (dec : List Nat → α) :
    ∀ (vs : List α) (f : FileData) (start i : Nat), i < start →
      readElem s dec (writeSeq s enc f start vs) i = readElem s dec f i := by
  intro vs
  induction vs with
  | nil => intro f start i _; rfl
  | cons v rest ih =>
    intro f start i hi
    simp only [writeSeq]
    rw [ih _ (start + 1) i (by omega),
      readElem_writeElem_other s enc dec f i start v (by omega)]

/-- After writing the values `vs` at consecutive element indices
starting at `start`, element `start + i` reads back as the `i`-th
written value (through the representation round trip). -/
theorem readElem_writeSeq_get {α : Type} (s : Nat) (enc : α → List Nat)
    (dec : List Nat → α) (henc : ∀ a, (enc a).length = s) :
    ∀ (vs : List α) (f : FileData) (start i : Nat) (hi : i < vs.length),
      readElem s dec (writeSeq s enc f start vs) (start + i) =
        dec (enc (vs.get ⟨i, hi⟩)) := by
  intro vs
  induction vs with
  | nil => intro f start i hi; simp at hi
  | cons v rest ih =>
    intro f start i hi
    simp only [writeSeq]
    cases i with
    | zero =>
      have hself :
          readElem s dec (writeSeq s enc (writeElem s enc f start v) (start + 1) rest)
            start = dec (enc v) := by
        rw [readElem_writeSeq_lt s enc dec rest _ (start + 1) start (by omega),
          readElem_writeElem_self s enc dec f start v (henc v)]
      simpa using hself
    | succ j =>
      have harith : start + (j + 1) = (start + 1) + j := by omega
      rw [harith, ih _ (start + 1) j (by simpa using hi)]
      simp

/-- A successful `file_source::open` implies every fallible step before
the return succeeded. -/
theorem sourceOpen_ok_env (s : Nat) (st : ViewState) (fs : Option FileData)
    (e : SrcEnv) (h : (sourceOpen s st fs e).res = .ok ()) :
    (∃ f, fs = some f) ∧ e.statOk = true ∧ e.mmapOk = true ∧
      e.madviseOk = true := by
  match fs with
  | none => simp [sourceOpen] at h
  | some f =>
    refine ⟨⟨f, rfl⟩, ?_, ?_, ?_⟩ <;>
      · by_cases h1 : e.statOk <;> by_cases h2 : e.mmapOk <;>
          by_cases h3 : e.madviseOk <;>
          simp_all [sourceOpen]

/-- A successful `file_sink::open` implies the descriptor-open and
mmap steps succeeded (the unchecked `ftruncate` is not implied). -/
theorem sinkOpen_ok_env (s : Nat) (st : ViewState) (fs : Option FileData)
    (n : Nat) (e : SinkEnv) (h : (sinkOpen s st fs n e).2.2 = .ok ()) :
    e.openOk = true ∧ e.mmapOk = true := by
  constructor <;>
    · by_cases h1 : e.openOk <;> by_cases h2 : e.mmapOk <;>
        simp_all [sinkOpen]

/-- Explicit form of the state and file produced by a successful
`file_sink::open`. -/
theorem sinkOpen_ok_eq (s : Nat) (st : ViewState) (fs : Option FileData)
    (n : Nat) (e : SinkEnv) (h1 : e.openOk = true) (h2 : e.mmapOk = true) :
    sinkOpen s st fs n e =
      ({ st with
          m_fd := (e.fd : Int)
          m_size := n * s % WORD
          m_data := (e.mmapAddr : Int) },
       some (if e.ftruncateOk then ⟨n * s % WORD, fun _ => 0⟩
             else ⟨0, fun _ => 0⟩),
       .ok ()) := by
  simp [sinkOpen, h1, h2]

/-- Explicit form of the state produced by a successful
`file_source::open`. -/
theorem sourceOpen_ok_eq (s : Nat) (st : ViewState) (f : FileData)
    (e : SrcEnv) (h1 : e.statOk = true) (h2 : e.mmapOk = true)
    (h3 : e.madviseOk = true) :
    sourceOpen s st (some f) e =
      ⟨{ st with
          m_fd := (e.fd : Int)
          m_size := f.len
          m_data := (e.mmapAddr : Int) },
       .ok (), some (((e.mmapAddr : Int)), f.len / s)⟩ := by
  simp [sourceOpen, h1, h2, h3]

/-! Concrete fixtures used by the witness and counterexample theorems. -/

/-- An all-zero file of the given length. -/
def zeroFile (len : Nat) : FileData := ⟨len, fun _ => 0⟩

/-- A concrete open view state: descriptor `3`, eight mapped bytes,
base address `100`. -/
def openSt : ViewState := ⟨3, 8, 100⟩

/-- A read-open environment in which every syscall succeeds. -/
def okSrcEnv : SrcEnv := ⟨5, true, true, 77, true⟩

/-- A read-open environment in which `fstat` fails. -/
def statFailEnv : SrcEnv := ⟨5, false, true, 77, true⟩

/-- A read-open environment in which `mmap` fails. -/
def mmapFailEnv : SrcEnv := ⟨5, true, false, 77, true⟩

/-- A read-open environment in which `posix_madvise` fails. -/
def madviseFailEnv : SrcEnv := ⟨5, true, true, 77, false⟩

/-- A write-open environment in which every syscall succeeds. -/
def okSinkEnv : SinkEnv := ⟨true, 5, true, true, 77⟩

/-- A write-open environment in which the initial `::open` fails. -/
def sinkOpenFailEnv : SinkEnv := ⟨false, 5, true, true, 77⟩

/-- A write-open environment in which `mmap` fails. -/
def sinkMmapFailEnv : SinkEnv := ⟨true, 5, true, false, 77⟩

/-- A write-open environment in which the unchecked `ftruncate` fails
while everything else succeeds. -/
def ftruncFailEnv : SinkEnv := ⟨true, 5, false, true, 77⟩

/-! The claims. -/

/-- C7: for every view (read or write), close is idempotent — when a
`close()` call returns without error, the view is closed afterwards and
a second `close()` is an error-free no-op that leaves the view closed
(the body is shared verbatim by `file_source::close` and
`file_sink::close`). -/
theorem close_idempotent (st st1 : ViewState) (m1 : Bool)
    (h : closeView st m1 = (st1, .ok ())) :
    is_open st1 = false ∧ ∀ m2 : Bool, closeView st1 m2 = (st1, .ok ()) := by
  have hst1 : is_open st1 = false := by
    by_cases ho : is_open st
    · by_cases hm : m1
      · have he : st1 = initState := by
          simp [closeView, ho, hm] at h
          exact h.symm
        rw [he]
        rfl
      · simp [closeView, ho, hm] at h
    · have he : st1 = st := by
        simp [closeView, ho] at h
        exact h.symm
      rw [he]
      simpa using ho
  exact ⟨hst1, fun m2 => by simp [closeView, hst1]⟩

/-- Witness for C7 at a concrete open view. -/
theorem close_idempotent_witness :
    closeView openSt true = (initState, .ok ()) ∧
    is_open initState = false ∧
    closeView initState false = (initState, .ok ()) :=
  ⟨rfl, (close_idempotent openSt initState true rfl).1,
   (close_idempotent openSt initState true rfl).2 false⟩

/-- C2 counterexample: a failing `munmap` during `close` on a concrete
open view reports `UnmapError` but does NOT reset the state — the
descriptor field still holds `3`, not the `-1` sentinel, so the view is
left stuck open (the `throw` happens before `::close(m_fd)` and
`init()`). -/
theorem close_failure_counterexample :
    (closeView openSt false).2 = .error .unmapError ∧
    (closeView openSt false).1 = openSt ∧
    is_open (closeView openSt false).1 = true :=
  ⟨rfl, rfl, rfl⟩

/-- C2 amended: for every open view (read or write), when the unmap
operation fails, `close` reports `UnmapError` and leaves the internal
state unchanged — the view remains open; the state is not reset to
Closed. -/
theorem close_failure_state_unchanged (st : ViewState)
    (h : is_open st = true) :
    closeView st false = (st, .error .unmapError) ∧
    is_open (closeView st false).1 = true := by
  refine ⟨by simp [closeView, h], ?_⟩
  simp [closeView, h]

/-- Witness for the amended C2 at a concrete open view. -/
theorem close_failure_state_unchanged_witness :
    is_open openSt = true ∧
    closeView openSt false = (openSt, .error .unmapError) :=
  ⟨rfl, (close_failure_state_unchanged openSt rfl).1⟩

/-- C10: a default-constructed view (state `init()`), and any view on
which `close()` just returned successfully, reports itself fully
closed: `is_open()` false, `bytes()` `0`, `data()` null, `size()` `0`
for every element size, and `begin() == end()` so iteration visits no
elements. -/
theorem closed_view_accessors :
    (is_open initState = false ∧ bytes initState = 0 ∧ data initState = 0 ∧
      ∀ s : Nat, size s initState = 0 ∧
        iterEq (beginIter initState) (endIter s initState) = true ∧
        ∀ (α : Type) (dec : List Nat → α) (f : FileData),
          viewElems s dec f initState = []) ∧
    ∀ (st st1 : ViewState) (mOk : Bool), is_open st = true →
      closeView st mOk = (st1, .ok ()) →
      is_open st1 = false ∧ bytes st1 = 0 ∧ data st1 = 0 ∧
        ∀ s : Nat, size s st1 = 0 ∧
          iterEq (beginIter st1) (endIter s st1) = true ∧
          ∀ (α : Type) (dec : List Nat → α) (f : FileData),
            viewElems s dec f st1 = [] := by
  have base : is_open initState = false ∧ bytes initState = 0 ∧
      data initState = 0 ∧
      ∀ s : Nat, size s initState = 0 ∧
        iterEq (beginIter initState) (endIter s initState) = true ∧
        ∀ (α : Type) (dec : List Nat → α) (f : FileData),
          viewElems s dec f initState = [] := by
    refine ⟨rfl, rfl, rfl, fun s => ⟨?_, ?_, ?_⟩⟩
    · simp [size, initState]
    · simp [iterEq, beginIter, endIter, mkIter, size, initState]
    · intro α dec f
      rw [viewElems_eq_map]
      simp [size, initState]
  refine ⟨base, fun st st1 mOk ho hc => ?_⟩
  have hm : mOk = true := by
    by_cases hmk : mOk
    · exact hmk
    · simp [closeView, ho, hmk] at hc
  have hst1 : st1 = initState := by
    simp [closeView, ho, hm] at hc
    exact hc.symm
  rw [hst1]
  exact base

/-- Witness for C10 at a concrete open view being closed. -/
theorem closed_view_accessors_witness :
    is_open openSt = true ∧ closeView openSt true = (initState, .ok ()) ∧
    is_open initState = false ∧ size 4 initState = 0 ∧
    viewElems 4 (fun l => l.headD 0) (zeroFile 0) initState = [] := by
  have h := (closed_view_accessors.2) openSt initState true rfl rfl
  exact ⟨rfl, rfl, h.1, (h.2.2.2 4).1, (h.2.2.2 4).2.2 Nat (fun l => l.headD 0) (zeroFile 0)⟩

/-- C1 counterexample: on a concrete fresh read view, an `open` that
fails at the `fstat` step throws `FileStatError` yet leaves
`is_open()` reporting `true`, because `m_fd` was already assigned the
new descriptor before the throw — the view is NOT in the fully closed
state after this failed `open`. -/
theorem open_failure_counterexample :
    (sourceOpen 1 initState (some (zeroFile 10)) statFailEnv).res =
      .error .fileStatError ∧
    is_open (sourceOpen 1 initState (some (zeroFile 10)) statFailEnv).st = true :=
  ⟨rfl, rfl⟩

/-- C1 amended: only a failure of the initial `::open` call leaves a
fresh view fully closed (the returned `-1` is assigned to `m_fd`); a
failure at the `fstat`, `mmap` or `posix_madvise` step of
`file_source::open`, or at the `mmap` step of `file_sink::open`,
leaves the view with `is_open()` true since the descriptor field keeps
the new descriptor, and after an `mmap` failure `data()` is
`MAP_FAILED` (`-1`), not null. -/
theorem open_failure_state (s : Nat) (f : FileData) (e1 e2 e3 : SrcEnv)
    (fs : Option FileData) (n : Nat) (es2 : SinkEnv)
    (h1 : e1.statOk = false)
    (h2s : e2.statOk = true) (h2m : e2.mmapOk = false)
    (h3s : e3.statOk = true) (h3m : e3.mmapOk = true) (h3a : e3.madviseOk = false)
    (hs2o : es2.openOk = true) (hs2m : es2.mmapOk = false) :
    (sourceOpen s initState none e1 = ⟨initState, .error .fileOpenError, none⟩) ∧
    ((sourceOpen s initState (some f) e1).res = .error .fileStatError ∧
      is_open (sourceOpen s initState (some f) e1).st = true) ∧
    ((sourceOpen s initState (some f) e2).res = .error .mappingError ∧
      is_open (sourceOpen s initState (some f) e2).st = true ∧
      data (sourceOpen s initState (some f) e2).st = -1) ∧
    ((sourceOpen s initState (some f) e3).res = .error .adviseError ∧
      is_open (sourceOpen s initState (some f) e3).st = true) ∧
    (∀ es1 : SinkEnv, es1.openOk = false →
      sinkOpen s initState fs n es1 = (initState, fs, .error .fileOpenError)) ∧
    ((sinkOpen s initState fs n es2).2.2 = .error .mappingError ∧
      is_open (sinkOpen s initState fs n es2).1 = true ∧
      data (sinkOpen s initState fs n es2).1 = -1) := by
  refine ⟨rfl, ⟨?_, ?_⟩, ⟨?_, ?_, ?_⟩, ⟨?_, ?_⟩, ?_, ⟨?_, ?_, ?_⟩⟩
  · simp [sourceOpen, h1]
  · simp only [sourceOpen, h1]
    simp [is_open]
  · simp [sourceOpen, h2s, h2m]
  · simp only [sourceOpen, h2s, h2m]
    simp [is_open]
  · simp [sourceOpen, h2s, h2m, data]
  · simp [sourceOpen, h3s, h3m, h3a]
  · simp only [sourceOpen, h3s, h3m, h3a]
    simp [is_open]
  · intro es1 hs1
    simp [sinkOpen, hs1]
    rfl
  · simp [sinkOpen, hs2o, hs2m]
  · simp only [sinkOpen, hs2o, hs2m]
    simp [is_open]
  · simp [sinkOpen, hs2o, hs2m, data]

/-- Witness for the amended C1 at concrete environments. -/
theorem open_failure_state_witness :
    is_open (sourceOpen 1 initState (some (zeroFile 10)) statFailEnv).st = true ∧
    is_open (sourceOpen 1 initState (some (zeroFile 10)) mmapFailEnv).st = true ∧
    is_open (sourceOpen 1 initState (some (zeroFile 10)) madviseFailEnv).st = true ∧
    sinkOpen 1 initState none 3 sinkOpenFailEnv =
      (initState, none, .error .fileOpenError) ∧
    is_open (sinkOpen 1 initState none 3 sinkMmapFailEnv).1 = true := by
  have h := open_failure_state 1 (zeroFile 10) statFailEnv mmapFailEnv
    madviseFailEnv none 3 sinkMmapFailEnv rfl rfl rfl rfl rfl rfl rfl rfl
  exact ⟨h.2.1.2, h.2.2.1.2.1, h.2.2.2.1.2,
    h.2.2.2.2.1 sinkOpenFailEnv rfl, h.2.2.2.2.2.2.1⟩

/-- C3 counterexample: on a concrete open write view, dereferencing the
iterator yields a detached copy of the element (the source declares
`T operator*()`, returning by value), not mutable access into the
mapping — so an assignment through the dereferenced iterator cannot
modify the mapped element. -/
theorem sink_deref_counterexample :
    (sinkIterDeref 4 (fun l => l.headD 0) (zeroFile 16) 100 ⟨100⟩).isMutable
      = false ∧
    sinkIterDeref 4 (fun l => l.headD 0) (zeroFile 16) 100 ⟨100⟩ =
      .copy 0 :=
  ⟨rfl, rfl⟩

/-- C3 amended: for both views, dereferencing the iterator at any
position `i` (reached by `i` applications of `operator++` to
`begin()`) yields a copy of element `i` of the mapping — the write
view's `operator*` returns `T` by value exactly like the read view's,
and never grants mutable access. -/
theorem iter_deref_yields_copy (α : Type) (s : Nat) (dec : List Nat → α)
    (f : FileData) (st : ViewState) (i : Nat) :
    sinkIterDeref s dec f st.m_data (iterNext^[i] (beginIter st)) =
      .copy (readElem s dec f i) ∧
    sourceIterDeref s dec f st.m_data (iterNext^[i] (beginIter st)) =
      .copy (readElem s dec f i) ∧
    (sinkIterDeref s dec f st.m_data (iterNext^[i] (beginIter st))).isMutable
      = false := by
  have hiter : iterNext^[i] (beginIter st) = ⟨st.m_data + (i : Int)⟩ := by
    induction i with
    | zero => simp [beginIter, mkIter]
    | succ j ih =>
      rw [Function.iterate_succ_apply', ih]
      simp [iterNext, add_assoc]
  have hread : iterRead s dec f st.m_data ⟨st.m_data + (i : Int)⟩ =
      readElem s dec f i := by
    simp [iterRead]
  rw [hiter]
  exact ⟨by simp [sinkIterDeref, hread], by simp [sourceIterDeref, hread], rfl⟩

/-- C6: for every successfully opened read view, `bytes()` equals the
file's byte size at the moment of opening and `size()` equals
`bytes() / sizeof(T)`; moreover for every view state whatsoever,
`size()` is `bytes() / sizeof(T)` with truncation, so the bytes of a
trailing partial element are never counted as an element. -/
theorem source_bytes_size (s : Nat) (st : ViewState) (f : FileData)
    (e : SrcEnv) (h : (sourceOpen s st (some f) e).res = .ok ()) :
    bytes (sourceOpen s st (some f) e).st = f.len ∧
    size s (sourceOpen s st (some f) e).st = f.len / s ∧
    ∀ st2 : ViewState, size s st2 = bytes st2 / s ∧
      size s st2 * s ≤ bytes st2 := by
  obtain ⟨_, h1, h2, h3⟩ := sourceOpen_ok_env s st (some f) e h
  rw [sourceOpen_ok_eq s st f e h1 h2 h3]
  exact ⟨rfl, rfl, fun st2 => ⟨rfl, Nat.div_mul_le_self _ _⟩⟩

/-- Witness for C6: a ten-byte file viewed with a four-byte element
type has `bytes() = 10` and `size() = 2`. -/
theorem source_bytes_size_witness :
    (sourceOpen 4 initState (some (zeroFile 10)) okSrcEnv).res = .ok () ∧
    bytes (sourceOpen 4 initState (some (zeroFile 10)) okSrcEnv).st = 10 ∧
    size 4 (sourceOpen 4 initState (some (zeroFile 10)) okSrcEnv).st = 2 := by
  have h := source_bytes_size 4 initState (zeroFile 10) okSrcEnv rfl
  exact ⟨rfl, h.1, h.2.1⟩

/-- C8: for every successfully opened read view, the length argument
passed to `posix_madvise` is `m_size / sizeof(T)` — the element count,
not the byte count — so when `sizeof(T) > 1` and the mapping is
non-empty the hint covers strictly fewer than `bytes()` bytes. -/
theorem madvise_length (s : Nat) (st : ViewState) (f : FileData)
    (e : SrcEnv) (h : (sourceOpen s st (some f) e).res = .ok ()) :
    (sourceOpen s st (some f) e).madviseCall =
      some (data (sourceOpen s st (some f) e).st,
        bytes (sourceOpen s st (some f) e).st / s) ∧
    bytes (sourceOpen s st (some f) e).st = f.len ∧
    (1 < s → 0 < f.len →
      bytes (sourceOpen s st (some f) e).st / s <
        bytes (sourceOpen s st (some f) e).st) := by
  obtain ⟨_, h1, h2, h3⟩ := sourceOpen_ok_env s st (some f) e h
  rw [sourceOpen_ok_eq s st f e h1 h2 h3]
  exact ⟨rfl, rfl, fun hs hlen => Nat.div_lt_self hlen hs⟩

/-- Witness for C8: with `sizeof(T) = 4` on a ten-byte file the hint
length is `2`, strictly less than the ten mapped bytes. -/
theorem madvise_length_witness :
    (sourceOpen 4 initState (some (zeroFile 10)) okSrcEnv).madviseCall =
      some (data (sourceOpen 4 initState (some (zeroFile 10)) okSrcEnv).st,
        bytes (sourceOpen 4 initState (some (zeroFile 10)) okSrcEnv).st / 4) ∧
    bytes (sourceOpen 4 initState (some (zeroFile 10)) okSrcEnv).st / 4 <
      bytes (sourceOpen 4 initState (some (zeroFile 10)) okSrcEnv).st :=
  ⟨(madvise_length 4 initState (zeroFile 10) okSrcEnv rfl).1,
   (madvise_length 4 initState (zeroFile 10) okSrcEnv rfl).2.2
     (by decide) (by decide)⟩

/-- C9: `file_sink::open` computes the mapped byte length as
`n * sizeof(T)` in `size_t` arithmetic, i.e. modulo `2 ^ 64`; when the
product reaches `2 ^ 64`, a successful open reports
`bytes() = (n * sizeof(T)) mod 2 ^ 64` and `size()` differs from the
requested element count `n`. -/
theorem sink_size_overflow (s n : Nat) (st : ViewState)
    (fs : Option FileData) (e : SinkEnv) (hs : 0 < s)
    (hov : WORD ≤ n * s) (h : (sinkOpen s st fs n e).2.2 = .ok ()) :
    bytes (sinkOpen s st fs n e).1 = n * s % WORD ∧
    size s (sinkOpen s st fs n e).1 ≠ n := by
  obtain ⟨h1, h2⟩ := sinkOpen_ok_env s st fs n e h
  rw [sinkOpen_ok_eq s st fs n e h1 h2]
  refine ⟨rfl, ?_⟩
  have hx : n * s % WORD < WORD := Nat.mod_lt _ (by decide)
  have hlt : n * s % WORD / s < n := by
    rw [Nat.div_lt_iff_lt_mul hs]
    exact lt_of_lt_of_le hx hov
  exact Nat.ne_of_lt hlt

/-- Witness for C9: requesting `2 ^ 63` elements of a two-byte type
wraps the byte length to `0`, so `size()` is `0`, not `2 ^ 63`. -/
theorem sink_size_overflow_witness :
    bytes (sinkOpen 2 initState none 9223372036854775808 okSinkEnv).1 =
      9223372036854775808 * 2 % WORD ∧
    size 2 (sinkOpen 2 initState none 9223372036854775808 okSinkEnv).1 ≠
      9223372036854775808 :=
  sink_size_overflow 2 9223372036854775808 initState none okSinkEnv
    (by decide) (by decide) rfl

/-- C5 counterexample: in a concrete environment where the (unchecked)
`ftruncate` call fails while `::open` and `mmap` succeed,
`file_sink::open` with `n = 3` four-byte elements reports success, yet
the backing file's size is `0`, not `n * sizeof(T) = 12` — the resize
DID silently fail during a successful open, because the source ignores
the return value of `ftruncate`. -/
theorem sink_resize_counterexample :
    (sinkOpen 4 initState none 3 ftruncFailEnv).2.2 = .ok () ∧
    fileLen (sinkOpen 4 initState none 3 ftruncFailEnv).2.1 = 0 ∧
    bytes (sinkOpen 4 initState none 3 ftruncFailEnv).1 = 12 :=
  ⟨rfl, rfl, rfl⟩

/-- C5 amended: when `file_sink::open` succeeds AND the `ftruncate`
call it performs succeeds, the backing file's size is exactly
`n * sizeof(T)` (modulo the `size_t` word) and every byte of the file
is zero before any write occurs; but since the source ignores the
return value of `ftruncate`, a successful open does not by itself
guarantee the resize happened. -/
theorem sink_resize_success (s n : Nat) (st : ViewState)
    (fs : Option FileData) (e : SinkEnv) (hft : e.ftruncateOk = true)
    (h : (sinkOpen s st fs n e).2.2 = .ok ()) :
    fileLen (sinkOpen s st fs n e).2.1 = n * s % WORD ∧
    (n * s < WORD → fileLen (sinkOpen s st fs n e).2.1 = n * s) ∧
    ∀ k : Nat, fileByte (sinkOpen s st fs n e).2.1 k = 0 := by
  obtain ⟨h1, h2⟩ := sinkOpen_ok_env s st fs n e h
  rw [sinkOpen_ok_eq s st fs n e h1 h2]
  refine ⟨by simp [hft, fileLen], fun hb => ?_, fun k => by simp [hft, fileByte]⟩
  simp [hft, fileLen, Nat.mod_eq_of_lt hb]

/-- Witness for the amended C5: three four-byte elements give a
twelve-byte zero file. -/
theorem sink_resize_success_witness :
    (sinkOpen 4 initState none 3 okSinkEnv).2.2 = .ok () ∧
    fileLen (sinkOpen 4 initState none 3 okSinkEnv).2.1 = 3 * 4 ∧
    fileByte (sinkOpen 4 initState none 3 okSinkEnv).2.1 7 = 0 := by
  have h := sink_resize_success 4 3 initState none okSinkEnv rfl rfl
  exact ⟨rfl, h.2.1 (by decide), h.2.2 7⟩

/-- C4: the write-then-read round trip.  Opening a write view with
element count `n` on the path (whatever file `fs0` was there before),
writing the `n` values `vs` in order through the mapping, closing the
write view, then opening a read view of the same element type on the
same path and iterating it from `begin()` to `end()` yields back
exactly `vs`, in order.  `enc`/`dec` are the in-memory representation
of the element type (`dec` inverts `enc`, and each encoding occupies
exactly `sizeof(T)` bytes); `n * sizeof(T)` is assumed not to overflow
`size_t`, and every syscall in the scenario behaves normally. -/
theorem write_read_round_trip (α : Type) (s : Nat) (enc : α → List Nat)
    (dec : List Nat → α) (hs : 0 < s) (henc : ∀ a, (enc a).length = s)
    (hdec : ∀ a, dec (enc a) = a) (vs : List α) (n : Nat)
    (hn : vs.length = n) (hbound : n * s < WORD)
    (fs0 : Option FileData) (ew : SinkEnv) (er : SrcEnv)
    (hwo : ew.openOk = true) (hwf : ew.ftruncateOk = true)
    (hwm : ew.mmapOk = true) (hrs : er.statOk = true)
    (hrm : er.mmapOk = true) (hra : er.madviseOk = true) :
    (sinkOpen s initState fs0 n ew).2.2 = .ok () ∧
    (closeView (sinkOpen s initState fs0 n ew).1 true).2 = .ok () ∧
    (sourceOpen s initState
        (some (writeSeq s enc (fileOf (sinkOpen s initState fs0 n ew).2.1) 0 vs))
        er).res = .ok () ∧
    viewElems s dec
        (writeSeq s enc (fileOf (sinkOpen s initState fs0 n ew).2.1) 0 vs)
        (sourceOpen s initState
          (some (writeSeq s enc (fileOf (sinkOpen s initState fs0 n ew).2.1) 0 vs))
          er).st = vs := by
  have hmod : n * s % WORD = n * s := Nat.mod_eq_of_lt hbound
  have hsink : sinkOpen s initState fs0 n ew =
      (⟨(ew.fd : Int), n * s, (ew.mmapAddr : Int)⟩,
       some ⟨n * s, fun _ => 0⟩, .ok ()) := by
    rw [sinkOpen_ok_eq s initState fs0 n ew hwo hwm]
    simp [hwf, hmod, initState]
  rw [hsink]
  simp only [fileOf]
  have hlen : (writeSeq s enc ⟨n * s, fun _ => 0⟩ 0 vs).len = n * s := by
    rw [writeSeq_len]
  have hopen : is_open ⟨(ew.fd : Int), n * s, (ew.mmapAddr : Int)⟩ = true := by
    simp [is_open]
  refine ⟨by trivial, by simp [closeView, hopen], ?_, ?_⟩
  · rw [sourceOpen_ok_eq s initState _ er hrs hrm hra]
  · rw [sourceOpen_ok_eq s initState _ er hrs hrm hra]
    have hsize : size s { initState with
        m_fd := ((er.fd : Nat) : Int)
        m_size := (writeSeq s enc ⟨n * s, fun _ => 0⟩ 0 vs).len
        m_data := ((er.mmapAddr : Nat) : Int) } = n := by
      simp [size, hlen, Nat.mul_div_cancel _ hs]
    rw [viewElems_eq_map, hsize]
    apply List.ext_getElem
    · simp [hn]
    · intro i hi1 hi2
      simp only [List.getElem_map, List.getElem_range]
      have hi : i < vs.length := by
        rw [hn]
        simpa using hi1
      have hget := readElem_writeSeq_get s enc dec henc vs
        ⟨n * s, fun _ => 0⟩ 0 i hi
      rw [Nat.zero_add] at hget
      rw [hget, hdec]
      simp

/-- Witness for C4: writing `[10, 20, 30, 40]` as four one-byte
elements and reading them back through a fresh read view yields
`[10, 20, 30, 40]`. -/
theorem write_read_round_trip_witness :
    viewElems 1 (fun l => l.headD 0)
        (writeSeq 1 (fun a => [a])
          (fileOf (sinkOpen 1 initState none 4 okSinkEnv).2.1) 0
          [10, 20, 30, 40])
        (sourceOpen 1 initState
          (some (writeSeq 1 (fun a => [a])
            (fileOf (sinkOpen 1 initState none 4 okSinkEnv).2.1) 0
            [10, 20, 30, 40]))
          okSrcEnv).st = [10, 20, 30, 40] :=
  (write_read_round_trip Nat 1 (fun a => [a]) (fun l => l.headD 0)
    (by decide) (fun a => rfl) (fun a => rfl) [10, 20, 30, 40] 4 rfl
    (by decide) none okSinkEnv okSrcEnv rfl rfl rfl rfl rfl rfl).2.2.2

end MmFile
